import Mathlib

/-!
Verification development for the incremental extraction engine of
`tap_marketo/sync.py` (a singer.io tap).

Modelling conventions:
* Timestamps are natural numbers counting microseconds since the epoch.
  `pendulum` datetimes are totally ordered and the code only adds fixed
  day spans, compares, takes maxima and truncates to whole seconds, so
  naturals are a faithful carrier.  `replace(microsecond=0)` becomes
  `truncSec`.
* External collaborators (the Marketo client, `pendulum.utcnow`, the CSV
  download) are passed in as explicit environment records: `utcnow` at the
  i-th loop iteration is `clock i`, the rows streamed for the i-th export
  are `rows i`, job creation returns `newExportId i`, and job waiting
  succeeds iff `waitOk`.  A streamed lead row is represented by its parsed
  `updatedAt` timestamp, which is the only field the sync logic inspects.
* `singer.write_state` is a synchronous durable write; every state value
  passed to it is recorded, in order, in a `writes` trace.
* Python exceptions (`ExportFailed`, `KeyError`, `AttributeError`,
  `pendulum.parse(None)`) end the run; loops record this with a
  `RunExit.crashed` outcome or an `Except.error` value.
* The `while` loops of the sync drivers are embedded with explicit fuel;
  `RunExit.fuelOut` marks a run that was cut off by exhausted fuel rather
  than by the loop condition.
-/

namespace TapMarketo

/-- Microseconds per second. -/
def usPerSecond : ℕ := 1000000

/-- Microseconds per day. -/
def usPerDay : ℕ := 86400 * usPerSecond

/-- sync.py:13 — `MAX_EXPORT_DAYS = 30`. -/
def MAX_EXPORT_DAYS : ℕ := 30

/-- sync.py:36 — `ATTRIBUTION_WINDOW_DAYS = 1`. -/
def ATTRIBUTION_WINDOW_DAYS : ℕ := 1

/-- `dt.replace(microsecond=0)`: drop the sub-second part of a timestamp. -/
def truncSec (t : ℕ) : ℕ := t / usPerSecond * usPerSecond

/-- A raw Python value as handled by `format_value`: `None`, a string, a
bool, or an integer. -/
inductive Value where
  | vnone
  | vstr (s : String)
  | vbool (b : Bool)
  | vint (n : Int)
deriving DecidableEq

/-- Python exceptions raised by `format_value`. -/
inductive PyErr where
  | keyError
  | attributeError
deriving DecidableEq

/-- The `"type"` entry of a field schema: either a single scalar name or a
list of scalar names (sync.py:40-43 normalises both to a list). -/
inductive JType where
  | single (t : String)
  | many (ts : List String)
deriving DecidableEq

/-- A field schema as read by `format_value`: the `"type"` key may be
absent from the underlying dict (in which case `schema["type"]` at
sync.py:40 raises `KeyError`), the `"format"` key is read with `.get`. -/
structure FieldSchema where
  type : Option JType
  format : Option String
deriving DecidableEq

/-- sync.py:40-43 — normalise `schema["type"]` to a list. -/
def typeList : JType → List String
  | JType.single t => [t]
  | JType.many ts => ts

/-- sync.py:45 — `value in [None, "", 'null']` (Python `in` compares with
`==`; non-string non-None values never equal `""` or `"null"`). -/
def nullEquiv (v : Value) : Bool :=
  decide (v = Value.vnone) || decide (v = Value.vstr "") || decide (v = Value.vstr "null")

/-- The library coercions `format_value` delegates to:
`pendulum.parse(value).isoformat()`, `int(value)`, `str(value)` and
`float(value)`.  Their input/output behaviour is opaque to the sync
logic, so they are abstract functions supplied by the caller. -/
structure Prims where
  parseIso : Value → Value
  pyInt : Value → Value
  pyStr : Value → Value
  pyFloat : Value → Value

/-- The identity instantiation of `Prims`, used for concrete runs. -/
def idPrims : Prims := ⟨fun v => v, fun v => v, fun v => v, fun v => v⟩

/-- sync.py:39-60 — `format_value(value, schema)`.

Line-by-line: `schema["type"]` is read first (lines 40-43) and raises
`KeyError` when typeless; then the null-equivalence check (45-46); then the
`date-time` format check (47-48); then the declared-type checks in order
integer, string, number, boolean (49-58); line 56 returns a bool input
as-is, line 58 lowercases the string (`.lower()` on a non-string raises
`AttributeError`); line 60 returns the value unchanged otherwise. -/
def format_value (pr : Prims) (value : Value) (schema : FieldSchema) : Except PyErr Value :=
  match schema.type with
  | none => Except.error PyErr.keyError
  | some jt =>
    let field_type := typeList jt
    if nullEquiv value then Except.ok Value.vnone
    else if schema.format = some "date-time" then Except.ok (pr.parseIso value)
    else if field_type.contains "integer" then Except.ok (pr.pyInt value)
    else if field_type.contains "string" then Except.ok (pr.pyStr value)
    else if field_type.contains "number" then Except.ok (pr.pyFloat value)
    else if field_type.contains "boolean" then
      match value with
      | Value.vbool b => Except.ok (Value.vbool b)
      | Value.vstr s => Except.ok (Value.vbool (s.toLower == "true"))
      | _ => Except.error PyErr.attributeError
    else Except.ok value

/-- The per-category bookmark entry for a bulk-export (windowed) category:
the replication cursor, the in-flight export id, and that export's window
end (`bookmarks.write_bookmark` keys `replication_key`, `"export_id"`,
`"export_end"`). -/
structure StreamBook where
  repCursor : ℕ
  exportId : Option ℕ
  exportEnd : Option ℕ
deriving DecidableEq

/-- sync.py:72-79 — `update_state_with_export_info`.  `export_id` and
`export_end` are written unconditionally (they default to `None` in the
Python signature and callers that omit them clear both fields); the
replication bookmark is written only when a truthy `bookmark` is passed.
The resulting state is also passed to `singer.write_state`; callers record
it in their `writes` trace. -/
def update_state_with_export_info
    (st : StreamBook) (bookmark export_id export_end : Option ℕ) : StreamBook :=
  ⟨bookmark.getD st.repCursor, export_id, export_end⟩

/-- sync.py:82-87 — `get_export_end(export_start)`: add 30 days, clamp to
`utcnow()` (`now` here), truncate to whole seconds.  The two `utcnow()`
calls on lines 84-85 are modelled as one reading of the clock. -/
def get_export_end (export_start now : ℕ) : ℕ :=
  truncSec
    (if now ≤ export_start + MAX_EXPORT_DAYS * usPerDay then now
     else export_start + MAX_EXPORT_DAYS * usPerDay)

/-- Result of `wait_for_export`: the returned state or the re-raised
`ExportFailed`, the states written, and how many times
`client.wait_for_export` was invoked. -/
structure WaitResult where
  result : Except Unit StreamBook
  writes : List StreamBook
  waitCalls : ℕ

/-- sync.py:90-98 — `wait_for_export(client, state, stream, export_id)`.
`ok` is whether `client.wait_for_export` succeeds; on `ExportFailed` the
state is rewritten with `export_id`/`export_end` cleared (no bookmark is
passed, so the replication cursor is untouched) and the exception is
re-raised.  The client is polled exactly once — there is no retry. -/
def wait_for_export (ok : Bool) (st : StreamBook) : WaitResult :=
  if ok then ⟨Except.ok st, [], 1⟩
  else ⟨Except.error (), [update_state_with_export_info st none none none], 1⟩

/-- How a fuelled loop run ended: the `while` condition became false
(`done`), fuel ran out (`fuelOut`), or a Python exception escaped
(`crashed`). -/
inductive RunExit where
  | done
  | fuelOut
  | crashed
deriving DecidableEq

/-- One completed iteration of the `sync_leads` while-loop: the window
bounds, the record timestamps emitted, and the bookmark written by the
post-window `update_state_with_export_info` call (sync.py:230). -/
structure LeadsIter where
  wstart : ℕ
  wend : ℕ
  emitted : List ℕ
  bkWritten : ℕ
deriving DecidableEq

/-- A full `sync_leads` run: per-window info, the trace of states passed
to `singer.write_state`, the value of `export_start` when the loop
stopped, and how it stopped. -/
structure LeadsRun where
  iters : List LeadsIter
  writes : List StreamBook
  finalStart : ℕ
  outcome : RunExit
deriving DecidableEq

/-- Environment for `sync_leads`: the Corona capability flag
(`client.use_corona`), `client.export_available`, `client.create_export`
(returning `newExportId i` at iteration `i`), the parsed `updatedAt`
timestamps of the rows streamed for iteration `i`, `pendulum.utcnow()` as
read at iteration `i`, and whether `client.wait_for_export` succeeds for a
given export id. -/
structure LeadsEnv where
  useCorona : Bool
  avail : Option ℕ → Bool
  newExportId : ℕ → ℕ
  rows : ℕ → List ℕ
  clock : ℕ → ℕ
  waitOk : ℕ → Bool

/-- sync.py:216-227 — the body of the per-row loop of `sync_leads`,
folded over the accumulator `(max_bookmark, emitted-so-far)`.  With
Corona every row is emitted and `max_bookmark` becomes the window end;
without Corona a row is emitted only when its own `updatedAt` is at least
the initial bookmark, and `max_bookmark` takes the running maximum. -/
def leadsRowStep (use_corona : Bool) (initial_bookmark export_end : ℕ)
    (acc : ℕ × List ℕ) (ts : ℕ) : ℕ × List ℕ :=
  if use_corona then (export_end, acc.2 ++ [ts])
  else if initial_bookmark ≤ ts then (max acc.1 ts, acc.2 ++ [ts])
  else acc

/-- sync.py:213-231 — the while-loop of `sync_leads`, with explicit fuel.

Each iteration: `get_or_create_export_for_leads` (sync.py:117-142) — if the
stored export id is unavailable it is dropped; with no id a fresh export is
created for the window `[export_start, get_export_end export_start now)`
and the state is written with both export fields set; with a still-valid id
the persisted `export_end` is reused (parsing a missing `export_end`, i.e.
`pendulum.parse(None)`, raises).  Then `wait_for_export`; on failure the
cleared state is written and the exception propagates.  Then the rows are
folded with `leadsRowStep`, the post-window state is written with
`bookmark=max_bookmark` and both export fields cleared, and the next
iteration starts at `export_start := export_end`. -/
def sync_leads_loop (env : LeadsEnv) (initial_bookmark job_started : ℕ) :
    ℕ → ℕ → ℕ → ℕ → StreamBook → LeadsRun
  | 0, export_start, _, _, _ =>
    ⟨[], [], export_start, if export_start < job_started then RunExit.fuelOut else RunExit.done⟩
  | fuel + 1, export_start, max_bookmark, i, st =>
    if export_start < job_started then
      match (if env.avail st.exportId then st.exportId else none), st.exportEnd with
      | none, _ =>
        let export_end := get_export_end export_start (env.clock i)
        let export_id := env.newExportId i
        let st1 := update_state_with_export_info st none (some export_id) (some export_end)
        let wr := wait_for_export (env.waitOk export_id) st1
        match wr.result with
        | Except.error _ => ⟨[], st1 :: wr.writes, export_start, RunExit.crashed⟩
        | Except.ok st1b =>
          let folded := (env.rows i).foldl
            (leadsRowStep env.useCorona initial_bookmark export_end) (max_bookmark, [])
          let st2 := update_state_with_export_info st1b (some folded.1) none none
          let rest := sync_leads_loop env initial_bookmark job_started fuel export_end folded.1 (i + 1) st2
          ⟨⟨export_start, export_end, folded.2, folded.1⟩ :: rest.iters,
            st1 :: st2 :: rest.writes, rest.finalStart, rest.outcome⟩
      | some export_id, some export_end =>
        let wr := wait_for_export (env.waitOk export_id) st
        match wr.result with
        | Except.error _ => ⟨[], wr.writes, export_start, RunExit.crashed⟩
        | Except.ok st1b =>
          let folded := (env.rows i).foldl
            (leadsRowStep env.useCorona initial_bookmark export_end) (max_bookmark, [])
          let st2 := update_state_with_export_info st1b (some folded.1) none none
          let rest := sync_leads_loop env initial_bookmark job_started fuel export_end folded.1 (i + 1) st2
          ⟨⟨export_start, export_end, folded.2, folded.1⟩ :: rest.iters,
            st2 :: rest.writes, rest.finalStart, rest.outcome⟩
      | some _, none => ⟨[], [], export_start, RunExit.crashed⟩
    else ⟨[], [], export_start, RunExit.done⟩

/-- sync.py:202-233 — `sync_leads`.  The initial bookmark and the loop's
starting `export_start` are both read from the replication cursor
(sync.py:205-206); with Corona the start is backed off by the 1-day
attribution window (sync.py:207-208); `job_started` is `pendulum.utcnow()`
captured once before the loop (sync.py:210). -/
def sync_leads (env : LeadsEnv) (fuel : ℕ) (st : StreamBook) (job_started : ℕ) : LeadsRun :=
  let initial_bookmark := st.repCursor
  let export_start :=
    if env.useCorona then initial_bookmark - ATTRIBUTION_WINDOW_DAYS * usPerDay
    else initial_bookmark
  sync_leads_loop env initial_bookmark job_started fuel export_start initial_bookmark 0 st

/-- Abbreviation for the window end computed at iteration `i` of the
leads loop (`get_export_end(export_start)` with the clock read there). -/
def leadsEE (env : LeadsEnv) (start i : ℕ) : ℕ :=
  get_export_end start (env.clock i)

/-- Abbreviation for the row fold of iteration `i` of the leads loop:
the resulting `(max_bookmark, emitted rows)` accumulator. -/
def leadsFold (env : LeadsEnv) (ib start mb i : ℕ) : ℕ × List ℕ :=
  (env.rows i).foldl (leadsRowStep env.useCorona ib (leadsEE env start i)) (mb, [])

/-- Abbreviation for the recursive call that follows a successful
iteration `i` of the leads loop. -/
def leadsNext (env : LeadsEnv) (ib js fuel start mb i : ℕ) : LeadsRun :=
  sync_leads_loop env ib js fuel (leadsEE env start i) (leadsFold env ib start mb i).1 (i + 1)
    ⟨(leadsFold env ib start mb i).1, none, none⟩

/-- One completed iteration of the `sync_activities` while-loop. -/
structure ActIter where
  wstart : ℕ
  wend : ℕ
  bkWritten : ℕ
deriving DecidableEq

/-- A full `sync_activities` run. -/
structure ActRun where
  iters : List ActIter
  writes : List StreamBook
  finalStart : ℕ
  outcome : RunExit
deriving DecidableEq

/-- Environment for `sync_activities`; `rowCount i` is the number of rows
streamed for the i-th window's export. -/
structure ActEnv where
  avail : Option ℕ → Bool
  newExportId : ℕ → ℕ
  rowCount : ℕ → ℕ
  clock : ℕ → ℕ
  waitOk : ℕ → Bool

/-- sync.py:242-252 — the while-loop of `sync_activities`, with explicit
fuel.  `get_or_create_export_for_activities` (sync.py:145-175) has the
same state handling as the leads variant.  The per-row pipeline at
sync.py:246-247 is `row = flatten_activity(row, stream)` followed by
`record = format_value(stream, row)` — `format_value` (not
`format_values`), so `row` is used as the schema argument and
`schema["type"]` raises `KeyError` for activity rows (flattened rows carry
no `"type"` key); the run therefore crashes on the first row of any
non-empty window, before any record or state write.  For an empty window
the post-window write at sync.py:251 passes
`bookmark=export_start.isoformat()` — the window *start*, not its end —
with both export fields cleared. -/
def sync_activities_loop (env : ActEnv) (job_started : ℕ) :
    ℕ → ℕ → ℕ → StreamBook → ActRun
  | 0, export_start, _, _ =>
    ⟨[], [], export_start, if export_start < job_started then RunExit.fuelOut else RunExit.done⟩
  | fuel + 1, export_start, i, st =>
    if export_start < job_started then
      match (if env.avail st.exportId then st.exportId else none), st.exportEnd with
      | none, _ =>
        let export_end := get_export_end export_start (env.clock i)
        let export_id := env.newExportId i
        let st1 := update_state_with_export_info st none (some export_id) (some export_end)
        let wr := wait_for_export (env.waitOk export_id) st1
        match wr.result with
        | Except.error _ => ⟨[], st1 :: wr.writes, export_start, RunExit.crashed⟩
        | Except.ok st1b =>
          if env.rowCount i = 0 then
            let st2 := update_state_with_export_info st1b (some export_start) none none
            let rest := sync_activities_loop env job_started fuel export_end (i + 1) st2
            ⟨⟨export_start, export_end, export_start⟩ :: rest.iters,
              st1 :: st2 :: rest.writes, rest.finalStart, rest.outcome⟩
          else ⟨[], [st1], export_start, RunExit.crashed⟩
      | some export_id, some export_end =>
        let wr := wait_for_export (env.waitOk export_id) st
        match wr.result with
        | Except.error _ => ⟨[], wr.writes, export_start, RunExit.crashed⟩
        | Except.ok st1b =>
          if env.rowCount i = 0 then
            let st2 := update_state_with_export_info st1b (some export_start) none none
            let rest := sync_activities_loop env job_started fuel export_end (i + 1) st2
            ⟨⟨export_start, export_end, export_start⟩ :: rest.iters,
              st2 :: rest.writes, rest.finalStart, rest.outcome⟩
          else ⟨[], [], export_start, RunExit.crashed⟩
      | some _, none => ⟨[], [], export_start, RunExit.crashed⟩
    else ⟨[], [], export_start, RunExit.done⟩

/-- sync.py:236-254 — `sync_activities`: the loop starts at the
replication cursor (sync.py:239) with `job_started` captured once
(sync.py:240). -/
def sync_activities (env : ActEnv) (fuel : ℕ) (st : StreamBook) (job_started : ℕ) : ActRun :=
  sync_activities_loop env job_started fuel st.repCursor 0 st

/-- Invariant checked on windowed-category state writes: the export id
and the export window end are null together (claim C9). -/
def exportFieldsTogether (w : StreamBook) : Bool :=
  w.exportId.isNone == w.exportEnd.isNone

/-- One page returned by the Marketo REST endpoint for a token-paginated
category: the rows (represented by their replication-key timestamps) and
the optional `nextPageToken` of the response. -/
structure Page where
  result : List ℕ
  nextPageToken : Option ℕ
deriving DecidableEq

/-- The bookmark entry of a token-paginated category: the replication
cursor and the persisted `next_page_token`. -/
structure PBook where
  repCursor : ℕ
  nextPageToken : Option ℕ
deriving DecidableEq

/-- Observable events of a `sync_paginated` run, in order: a page request
carrying the token used (if any), an emitted record, a `write_state`
call with the state written. -/
inductive PEvent where
  | request (tok : Option ℕ)
  | record (ts : ℕ)
  | writeState (b : PBook)
deriving DecidableEq

/-- sync.py:327-352 — the `while True` loop of `sync_paginated`, consuming
the successive responses `pages`.  Each iteration requests a page with the
current token (sync.py:328), emits the rows whose replication-key value is
at least `start_date` (sync.py:333-337); a response without a
`nextPageToken` breaks the loop (sync.py:340-341) and the final state —
token cleared, replication cursor set to `job_started` — is written
(sync.py:350-352); otherwise the token is persisted and written to state
before the next request (sync.py:344-346).  An empty `pages` list means
the client never answered the pending request; the run returns no final
state. -/
def sync_paginated_loop (job_started start_date : ℕ) :
    List Page → Option ℕ → PBook → List PEvent × Option PBook
  | [], tok, _ => ([PEvent.request tok], none)
  | page :: rest, tok, st =>
    let recs := (page.result.filter (fun ts => start_date ≤ ts)).map PEvent.record
    match page.nextPageToken with
    | none =>
      let fin : PBook := ⟨job_started, none⟩
      (PEvent.request tok :: recs ++ [PEvent.writeState fin], some fin)
    | some t =>
      let st1 : PBook := ⟨st.repCursor, some t⟩
      let r := sync_paginated_loop job_started start_date rest (some t) st1
      (PEvent.request tok :: recs ++ PEvent.writeState st1 :: r.1, r.2)

/-- sync.py:305-353 — `sync_paginated`: `start_date` is the replication
cursor read at run start (sync.py:313), the first request's token is
seeded from the persisted `next_page_token` (sync.py:320-322), and
`job_started` is `pendulum.utcnow()` captured before the first request
(sync.py:326). -/
def sync_paginated (job_started : ℕ) (pages : List Page) (st : PBook) :
    List PEvent × Option PBook :=
  sync_paginated_loop job_started st.repCursor pages st.nextPageToken st

/-- Adjacent-pair condition on a `sync_paginated` event trace: an event
immediately followed by a page request must be a `write_state` persisting
exactly the token that request carries (claim C5's ordering property). -/
def pairOk : PEvent → PEvent → Bool
  | PEvent.writeState b, PEvent.request o => decide (b.nextPageToken = o)
  | _, PEvent.request _ => false
  | _, _ => true

/-- One catalog entry as seen by the orchestrator: the stream id and the
`schema.selected` flag. -/
structure CatStream where
  id : String
  selected : Bool
deriving DecidableEq

/-- Observable events of the orchestrator: `write` is a `write_state`
call recording the currently-syncing marker it persists, `syncStream` is
the dispatch of one category's sync driver. -/
inductive OEvent where
  | write (marker : Option String)
  | syncStream (sid : String)
deriving DecidableEq

/-- sync.py:400-411 — the stream ids the dispatcher recognises; any other
id raises `Exception("Stream %s not implemented")`.  Python's
`tap_stream_id.startswith("activities_")` is the character-level prefix
test. -/
def stream_recognized (sid : String) : Bool :=
  sid == "activity_types" || sid == "leads" || "activities_".data.isPrefixOf sid.data ||
    sid == "campaigns" || sid == "lists" || sid == "programs"

/-- sync.py:380-421 — the orchestrator's stream loop.  Unselected streams
are skipped (sync.py:382-384); while a resume marker is set, streams whose
id differs from it are skipped (sync.py:387-389); the first stream actually
synced clears the local marker variable (sync.py:395), sets the
currently-syncing marker and writes state (sync.py:396-397), dispatches by
stream id (an unrecognised id raises, sync.py:411), then clears the marker
and writes state again (sync.py:419-420).  Returns the event trace and
whether the loop finished without raising. -/
def sync_loop : List CatStream → Option String → List OEvent × Bool
  | [], _ => ([], true)
  | s :: rest, starting =>
    if s.selected = false then sync_loop rest starting
    else
      match starting with
      | some m =>
        if s.id = m then
          if stream_recognized s.id then
            let r := sync_loop rest none
            (OEvent.write (some s.id) :: OEvent.syncStream s.id :: OEvent.write none :: r.1, r.2)
          else ([OEvent.write (some s.id)], false)
        else sync_loop rest (some m)
      | none =>
        if stream_recognized s.id then
          let r := sync_loop rest none
          (OEvent.write (some s.id) :: OEvent.syncStream s.id :: OEvent.write none :: r.1, r.2)
        else ([OEvent.write (some s.id)], false)

/-- sync.py:373-427 — `sync(client, catalog, state)`: read the
currently-syncing marker (sync.py:374) and run the stream loop over the
catalog in order. -/
def sync (catalog : List CatStream) (starting : Option String) : List OEvent × Bool :=
  sync_loop catalog starting

/-- The three orchestrator events surrounding one synced category:
persist the marker, run the driver, clear the marker and persist. -/
def orchTriple (sid : String) : List OEvent :=
  [OEvent.write (some sid), OEvent.syncStream sid, OEvent.write none]

/-- C7: `format_value` returns `None` whenever the raw value is
null-equivalent (`None`, `""`, or `"null"`), for every field schema that
declares a type, regardless of which type is declared and of the format.
(The spec's data model gives every field schema a `type` entry; a
typeless dict is outside it and makes `schema["type"]` raise before the
null check.) -/
theorem format_value_null_equivalents (pr : Prims) (schema : FieldSchema) (jt : JType)
    (v : Value) (htype : schema.type = some jt) (hnull : nullEquiv v = true) :
    format_value pr v schema = Except.ok Value.vnone := by
  unfold format_value
  rw [htype]
  simp [hnull]

/-- Witness for C7: the literal string `"null"` formats to `None` under an
integer schema. -/
theorem format_value_null_equivalents_witness :
    format_value idPrims (Value.vstr "null") ⟨some (JType.single "integer"), none⟩
      = Except.ok Value.vnone :=
  format_value_null_equivalents idPrims ⟨some (JType.single "integer"), none⟩
    (JType.single "integer") (Value.vstr "null") rfl (by decide)

/-- Counterexample to C8 as stated: for a schema whose `type` key is
absent, `format_value` does not return the value unchanged — line 40's
`schema["type"]` raises `KeyError`. -/
theorem format_value_absent_type_counterexample :
    format_value idPrims (Value.vstr "x") ⟨none, none⟩ = Except.error PyErr.keyError ∧
    format_value idPrims (Value.vstr "x") ⟨none, none⟩ ≠ Except.ok (Value.vstr "x") := by
  refine ⟨rfl, fun h => ?_⟩
  rw [show format_value idPrims (Value.vstr "x") ⟨none, none⟩
      = Except.error PyErr.keyError from rfl] at h
  exact Except.noConfusion h

/-- C8 (amended): for every non-null-equivalent value, `format_value`
parses by the first matching declared type in the priority order
timestamp (when format is date-time) → integer → string → number →
boolean, where boolean parsing returns an already-boolean input as-is and
otherwise returns whether the lowercased string equals `"true"`; a schema
whose declared type is unrecognized returns the value unchanged; a schema
with no `type` key raises `KeyError` (rather than returning the value
unchanged, as the original claim said). -/
theorem format_value_type_priority (pr : Prims) (schema : FieldSchema) (jt : JType) (v : Value)
    (htype : schema.type = some jt) (hnull : nullEquiv v = false) :
    (schema.format = some "date-time" → format_value pr v schema = Except.ok (pr.parseIso v))
    ∧ (schema.format ≠ some "date-time" → "integer" ∈ typeList jt →
        format_value pr v schema = Except.ok (pr.pyInt v))
    ∧ (schema.format ≠ some "date-time" → "integer" ∉ typeList jt → "string" ∈ typeList jt →
        format_value pr v schema = Except.ok (pr.pyStr v))
    ∧ (schema.format ≠ some "date-time" → "integer" ∉ typeList jt → "string" ∉ typeList jt →
        "number" ∈ typeList jt → format_value pr v schema = Except.ok (pr.pyFloat v))
    ∧ (schema.format ≠ some "date-time" → "integer" ∉ typeList jt → "string" ∉ typeList jt →
        "number" ∉ typeList jt → "boolean" ∈ typeList jt →
        (∀ b, v = Value.vbool b → format_value pr v schema = Except.ok (Value.vbool b))
        ∧ (∀ s, v = Value.vstr s →
            format_value pr v schema = Except.ok (Value.vbool (s.toLower == "true"))))
    ∧ (schema.format ≠ some "date-time" → "integer" ∉ typeList jt → "string" ∉ typeList jt →
        "number" ∉ typeList jt → "boolean" ∉ typeList jt →
        format_value pr v schema = Except.ok v)
    ∧ (∀ (fmt : Option String) (w : Value),
        format_value pr w ⟨none, fmt⟩ = Except.error PyErr.keyError) := by
  refine ⟨?_, ?_, ?_, ?_, ?_, ?_, ?_⟩
  · intro hdt
    unfold format_value; rw [htype]; simp [hnull, hdt]
  · intro hdt hint
    unfold format_value; rw [htype]
    simp [hnull, hdt, hint]
  · intro hdt hint hstr
    unfold format_value; rw [htype]
    simp [hnull, hdt, hint, hstr]
  · intro hdt hint hstr hnum
    unfold format_value; rw [htype]
    simp [hnull, hdt, hint, hstr, hnum]
  · intro hdt hint hstr hnum hbool
    constructor
    · intro b hb
      subst hb
      unfold format_value; rw [htype]
      simp [hnull, hdt, hint, hstr, hnum, hbool]
    · intro s hs
      subst hs
      unfold format_value; rw [htype]
      simp [hnull, hdt, hint, hstr, hnum, hbool]
  · intro hdt hint hstr hnum hbool
    unfold format_value; rw [htype]
    cases v with
    | vnone => simp [hnull, hdt, hint, hstr, hnum, hbool]
    | vstr s => simp [hnull, hdt, hint, hstr, hnum, hbool]
    | vbool b => simp [hnull, hdt, hint, hstr, hnum, hbool]
    | vint n => simp [hnull, hdt, hint, hstr, hnum, hbool]
  · intro fmt w
    rfl

/-- Witness for C8's amended theorem: an already-boolean `true` under a
boolean-typed schema is returned as-is. -/
theorem format_value_type_priority_witness :
    format_value idPrims (Value.vbool true) ⟨some (JType.many ["boolean"]), none⟩
      = Except.ok (Value.vbool true) := by
  have h := format_value_type_priority idPrims ⟨some (JType.many ["boolean"]), none⟩
    (JType.many ["boolean"]) (Value.vbool true) rfl (by decide)
  exact (h.2.2.2.2.1 (by decide) (by decide) (by decide) (by decide) (by decide)).1
    true rfl

/-- C4: when the awaited export job fails, the engine writes state with
`export_id` and `export_end` both cleared to null, leaves the replication
cursor unchanged (the state write passes no bookmark), re-raises the
failure, and polls the client exactly once (no retry). -/
theorem wait_for_export_failure_clears_export_info (ok : Bool) (st : StreamBook)
    (h : ok = false) :
    (wait_for_export ok st).writes = [⟨st.repCursor, none, none⟩]
    ∧ (wait_for_export ok st).result = Except.error ()
    ∧ (wait_for_export ok st).waitCalls = 1 := by
  subst h
  simp [wait_for_export, update_state_with_export_info]

/-- Witness for C4 at a concrete in-flight state. -/
theorem wait_for_export_failure_clears_export_info_witness :
    (wait_for_export false ⟨7, some 3, some 9⟩).writes = [⟨7, none, none⟩]
    ∧ (wait_for_export false ⟨7, some 3, some 9⟩).result = Except.error ()
    ∧ (wait_for_export false ⟨7, some 3, some 9⟩).waitCalls = 1 :=
  wait_for_export_failure_clears_export_info false ⟨7, some 3, some 9⟩ rfl

/-- C2 (code bug): for an activities window `[0s, 1s)` with zero rows the
bookmark written after the window is the window *start* (0), not the
window end (1s): sync.py:251 passes `bookmark=export_start.isoformat()`
before `export_start = export_end` runs, while the spec says the bookmark
always advances to `window_end`.  (Non-empty windows never even reach the
write: sync.py:247 calls `format_value(stream, row)` instead of
`format_values`, which raises `KeyError`.) -/
theorem activities_bookmark_written_is_window_start :
    (sync_activities ⟨fun _ => false, fun i => i, fun _ => 0, fun _ => usPerSecond, fun _ => true⟩
        3 ⟨0, none, none⟩ usPerSecond).iters = [⟨0, usPerSecond, 0⟩]
    ∧ (sync_activities ⟨fun _ => false, fun i => i, fun _ => 0, fun _ => usPerSecond, fun _ => true⟩
        3 ⟨0, none, none⟩ usPerSecond).outcome = RunExit.done
    ∧ (0 : ℕ) ≠ usPerSecond := by
  refine ⟨by decide, by decide, by decide⟩

/-- `pairOk` holds vacuously when the second event is not a request. -/
theorem pairOk_of_not_request (a b : PEvent) (h : ∀ o, b ≠ PEvent.request o) :
    pairOk a b = true := by
  cases b with
  | request o => exact absurd rfl (h o)
  | record ts => cases a <;> rfl
  | writeState bk => cases a <;> rfl

/-- A trace whose tail contains no request satisfies the `pairOk` chain. -/
theorem chain_pairOk_no_request : ∀ (l : List PEvent),
    (∀ e ∈ l.tail, ∀ o, e ≠ PEvent.request o) →
    List.Chain' (fun a b => pairOk a b = true) l := by
  intro l
  induction l with
  | nil => intro _; exact List.chain'_nil
  | cons a l ih =>
    intro h
    cases l with
    | nil => exact List.chain'_singleton a
    | cons b t =>
      rw [List.chain'_cons]
      constructor
      · exact pairOk_of_not_request a b (fun o => h b (by simp) o)
      · exact ih (fun e he o => h e (List.mem_cons_of_mem b he) o)

/-- The first event of every paginated loop trace is the request made with
the token the loop was entered with. -/
theorem sync_paginated_loop_head (js sd : ℕ) (pages : List Page) (tok : Option ℕ)
    (st : PBook) :
    (sync_paginated_loop js sd pages tok st).1.head? = some (PEvent.request tok) := by
  cases pages with
  | nil => rfl
  | cons p rest => cases hp : p.nextPageToken <;> simp [sync_paginated_loop, hp]

/-- Every adjacent pair of a paginated loop trace satisfies `pairOk`:
every page request except the first is immediately preceded by a state
write persisting exactly the token being requested. -/
theorem sync_paginated_loop_chain (js sd : ℕ) : ∀ (pages : List Page) (tok : Option ℕ)
    (st : PBook),
    List.Chain' (fun a b => pairOk a b = true) (sync_paginated_loop js sd pages tok st).1 := by
  intro pages
  induction pages with
  | nil => intro tok st; exact List.chain'_singleton _
  | cons p rest ih =>
    intro tok st
    cases hp : p.nextPageToken with
    | none =>
      have ht : (sync_paginated_loop js sd (p :: rest) tok st).1
          = PEvent.request tok
            :: (((p.result.filter (fun ts => sd ≤ ts)).map PEvent.record)
                ++ [PEvent.writeState ⟨js, none⟩]) := by
        simp [sync_paginated_loop, hp]
      rw [ht]
      apply chain_pairOk_no_request
      intro e he o
      simp only [List.tail_cons, List.mem_append, List.mem_map, List.mem_singleton] at he
      rcases he with ⟨ts, _, rfl⟩ | rfl <;> simp
    | some t =>
      have ht : (sync_paginated_loop js sd (p :: rest) tok st).1
          = (PEvent.request tok
              :: ((p.result.filter (fun ts => sd ≤ ts)).map PEvent.record))
            ++ (PEvent.writeState ⟨st.repCursor, some t⟩
              :: (sync_paginated_loop js sd rest (some t) ⟨st.repCursor, some t⟩).1) := by
        simp [sync_paginated_loop, hp]
      rw [ht]
      rw [List.chain'_append]
      refine ⟨?_, ?_, ?_⟩
      · apply chain_pairOk_no_request
        intro e he o
        simp only [List.tail_cons, List.mem_map] at he
        rcases he with ⟨ts, _, rfl⟩
        simp
      · rw [List.chain'_cons']
        refine ⟨?_, ih (some t) ⟨st.repCursor, some t⟩⟩
        intro y hy
        rw [sync_paginated_loop_head js sd rest (some t) ⟨st.repCursor, some t⟩] at hy
        simp only [Option.mem_def, Option.some.injEq] at hy
        subst hy
        simp [pairOk]
      · intro x _ y hy
        simp only [List.head?_cons, Option.mem_def, Option.some.injEq] at hy
        subst hy
        exact pairOk_of_not_request x _ (fun o h => PEvent.noConfusion h)

/-- When the paginated loop reaches a response without a `nextPageToken`,
the final state it returns and writes last has the token cleared and the
replication cursor set to `job_started`. -/
theorem sync_paginated_loop_final (js sd : ℕ) : ∀ (pages : List Page) (tok : Option ℕ)
    (st : PBook) (fin : PBook),
    (sync_paginated_loop js sd pages tok st).2 = some fin →
    fin.nextPageToken = none ∧ fin.repCursor = js
    ∧ (sync_paginated_loop js sd pages tok st).1.getLast? = some (PEvent.writeState fin) := by
  intro pages
  induction pages with
  | nil =>
    intro tok st fin h
    exact absurd h (by simp [sync_paginated_loop])
  | cons p rest ih =>
    intro tok st fin h
    cases hp : p.nextPageToken with
    | none =>
      have h2 : some (⟨js, none⟩ : PBook) = some fin := by
        rw [← h]; simp [sync_paginated_loop, hp]
      have h3 : (⟨js, none⟩ : PBook) = fin := by injection h2
      subst h3
      refine ⟨rfl, rfl, ?_⟩
      have ht : (sync_paginated_loop js sd (p :: rest) tok st).1
          = (PEvent.request tok
              :: ((p.result.filter (fun ts => sd ≤ ts)).map PEvent.record))
            ++ [PEvent.writeState ⟨js, none⟩] := by
        simp [sync_paginated_loop, hp]
      rw [ht, List.getLast?_concat]
    | some t =>
      have h2 : (sync_paginated_loop js sd rest (some t) ⟨st.repCursor, some t⟩).2
          = some fin := by
        rw [← h]; simp [sync_paginated_loop, hp]
      obtain ⟨f1, f2, f3⟩ := ih (some t) ⟨st.repCursor, some t⟩ fin h2
      refine ⟨f1, f2, ?_⟩
      have ht : (sync_paginated_loop js sd (p :: rest) tok st).1
          = (PEvent.request tok
              :: ((p.result.filter (fun ts => sd ≤ ts)).map PEvent.record)
              ++ [PEvent.writeState ⟨st.repCursor, some t⟩])
            ++ (sync_paginated_loop js sd rest (some t) ⟨st.repCursor, some t⟩).1 := by
        simp [sync_paginated_loop, hp]
      rw [ht]
      have hne : (sync_paginated_loop js sd rest (some t) ⟨st.repCursor, some t⟩).1 ≠ [] := by
        intro hnil
        have hh := sync_paginated_loop_head js sd rest (some t) ⟨st.repCursor, some t⟩
        rw [hnil] at hh
        exact Option.noConfusion hh
      rw [List.getLast?_append_of_ne_nil _ hne]
      exact f3

/-- C5: the token-paginated sync seeds its first request's page token from
the persisted `next_page_token` bookmark; every request after the first is
immediately preceded by a state write persisting exactly the token that
request carries (so a response's token is persisted before the next page
is requested); and when a response carries no token the loop stops and the
final state write — also the run's last event — clears the stored token
and sets the replication cursor to the timestamp captured at run start. -/
theorem sync_paginated_token_protocol (job_started : ℕ) (pages : List Page) (st : PBook) :
    (sync_paginated job_started pages st).1.head? = some (PEvent.request st.nextPageToken)
    ∧ List.Chain' (fun a b => pairOk a b = true) (sync_paginated job_started pages st).1
    ∧ ∀ fin, (sync_paginated job_started pages st).2 = some fin →
        fin.nextPageToken = none ∧ fin.repCursor = job_started
        ∧ (sync_paginated job_started pages st).1.getLast?
            = some (PEvent.writeState fin) := by
  refine ⟨?_, ?_, ?_⟩
  · exact sync_paginated_loop_head job_started st.repCursor pages st.nextPageToken st
  · exact sync_paginated_loop_chain job_started st.repCursor pages st.nextPageToken st
  · intro fin h
    exact sync_paginated_loop_final job_started st.repCursor pages st.nextPageToken st fin h

/-- Witness for C5: two pages, resuming from a persisted token. -/
theorem sync_paginated_token_protocol_witness :
    (sync_paginated 100 [⟨[5], some 7⟩, ⟨[9], none⟩] ⟨3, some 2⟩).1.head?
        = some (PEvent.request (some 2))
    ∧ (sync_paginated 100 [⟨[5], some 7⟩, ⟨[9], none⟩] ⟨3, some 2⟩).2 = some ⟨100, none⟩
    ∧ (sync_paginated 100 [⟨[5], some 7⟩, ⟨[9], none⟩] ⟨3, some 2⟩).1.getLast?
        = some (PEvent.writeState ⟨100, none⟩) := by
  have h := sync_paginated_token_protocol 100 [⟨[5], some 7⟩, ⟨[9], none⟩] ⟨3, some 2⟩
  have h3 := h.2.2 ⟨100, none⟩ (by decide)
  exact ⟨h.1, by decide, h3.2.2⟩

/-- With no resume marker, the orchestrator syncs exactly the selected
streams in catalog order, wrapping each in a marker write before and a
marker-clearing write after (all selected streams assumed recognised). -/
theorem sync_loop_none_events : ∀ (cat : List CatStream),
    ((cat.filter (fun s => s.selected)).all (fun s => stream_recognized s.id)) = true →
    sync_loop cat none
      = ((((cat.filter (fun s => s.selected)).map (fun s => s.id)).flatMap orchTriple), true) := by
  intro cat
  induction cat with
  | nil => intro _; rfl
  | cons s rest ih =>
    intro h
    by_cases hs : s.selected = true
    · have hf : (s :: rest).filter (fun s => s.selected)
          = s :: rest.filter (fun s => s.selected) := List.filter_cons_of_pos hs
      rw [hf, List.all_cons, Bool.and_eq_true] at h
      obtain ⟨h1, h2⟩ := h
      rw [show sync_loop (s :: rest) none
          = (OEvent.write (some s.id) :: OEvent.syncStream s.id :: OEvent.write none
              :: (sync_loop rest none).1, (sync_loop rest none).2) from by
        simp [sync_loop, hs, h1]]
      rw [ih h2, hf]
      simp [orchTriple]
    · have hs' : s.selected = false := by simpa using hs
      have hf : (s :: rest).filter (fun s => s.selected)
          = rest.filter (fun s => s.selected) := List.filter_cons_of_neg (by simp [hs'])
      rw [hf] at h
      rw [show sync_loop (s :: rest) none = sync_loop rest none from by simp [sync_loop, hs']]
      rw [ih h, hf]

/-- While the resume marker is set, the orchestrator skips every stream
before the first one whose id matches the marker. -/
theorem sync_loop_marker_skips : ∀ (cat : List CatStream) (m : String),
    sync_loop cat (some m) = sync_loop (cat.dropWhile (fun s => s.id != m)) (some m) := by
  intro cat
  induction cat with
  | nil => intro m; rfl
  | cons s rest ih =>
    intro m
    by_cases hid : s.id = m
    · have hbe : (s.id != m) = false := by simp [hid]
      rw [List.dropWhile_cons, hbe]
      simp
    · have hbe : (s.id != m) = true := by simp [hid]
      rw [List.dropWhile_cons, hbe]
      simp only [if_true]
      rw [← ih m]
      by_cases hs : s.selected = true
      · simp [sync_loop, hs, hid]
      · have hs' : s.selected = false := by simpa using hs
        simp [sync_loop, hs']

/-- The first stream not skipped by `dropWhile` is the one whose id is
the marker. -/
theorem head_dropWhile_id_eq : ∀ (cat : List CatStream) (m : String) (s0 : CatStream),
    (cat.dropWhile (fun s => s.id != m)).head? = some s0 → s0.id = m := by
  intro cat
  induction cat with
  | nil => intro m s0 h; exact absurd h (by simp)
  | cons s rest ih =>
    intro m s0 h
    by_cases hid : s.id = m
    · have hbe : (s.id != m) = false := by simp [hid]
      rw [List.dropWhile_cons, hbe] at h
      simp only [Bool.false_eq_true, if_false, List.head?_cons, Option.some.injEq] at h
      rw [← h]
      exact hid
    · have hbe : (s.id != m) = true := by simp [hid]
      rw [List.dropWhile_cons, hbe] at h
      simp only [if_true] at h
      exact ih m s0 h

/-- A `syncStream` event belongs to a `bind` of `orchTriple`s exactly when
its id is one of the bound ids. -/
theorem syncStream_mem_flatMap_orchTriple (ids : List String) (x : String) :
    OEvent.syncStream x ∈ ids.flatMap orchTriple ↔ x ∈ ids := by
  simp only [List.mem_flatMap, orchTriple]
  constructor
  · rintro ⟨i, hi, hmem⟩
    simp only [List.mem_cons, List.not_mem_nil, or_false] at hmem
    rcases hmem with h | h | h
    · exact absurd h (by simp)
    · rw [show x = i from by injection h]; exact hi
    · exact absurd h (by simp)
  · intro hx
    exact ⟨x, hx, by simp⟩

/-- C6: with a currently-syncing marker naming a selected catalog stream,
the orchestrator's trace is exactly: for each selected stream from the
marked one onward in catalog order, a state write setting the marker to
that stream, its sync dispatch, and a state write clearing the marker —
and no selected stream strictly before the marked one is ever synced. -/
theorem sync_orchestrator_resume (catalog : List CatStream) (m : String) (s0 : CatStream)
    (hNodup : (catalog.map (fun s => s.id)).Nodup)
    (hhead : (catalog.dropWhile (fun s => s.id != m)).head? = some s0)
    (hsel : s0.selected = true)
    (hrec : (((catalog.dropWhile (fun s => s.id != m)).filter (fun s => s.selected)).all
        (fun s => stream_recognized s.id)) = true) :
    (sync catalog (some m)).1
      = (((catalog.dropWhile (fun s => s.id != m)).filter (fun s => s.selected)).map
          (fun s => s.id)).flatMap orchTriple
    ∧ (sync catalog (some m)).2 = true
    ∧ ∀ s ∈ catalog.takeWhile (fun s => s.id != m), s.selected = true →
        OEvent.syncStream s.id ∉ (sync catalog (some m)).1 := by
  have hid0 : s0.id = m := head_dropWhile_id_eq catalog m s0 hhead
  rcases hae : catalog.dropWhile (fun s => s.id != m) with _ | ⟨s0', tail⟩
  · rw [hae] at hhead; exact absurd hhead (by simp)
  rw [hae] at hhead
  simp only [List.head?_cons, Option.some.injEq] at hhead
  rw [hhead] at hae
  have hf : (s0 :: tail).filter (fun s => s.selected)
      = s0 :: tail.filter (fun s => s.selected) := List.filter_cons_of_pos hsel
  rw [hae, hf] at hrec
  rw [List.all_cons, Bool.and_eq_true] at hrec
  obtain ⟨h1, h2⟩ := hrec
  have e1 : sync catalog (some m) = sync_loop (s0 :: tail) (some m) := by
    rw [show sync catalog (some m) = sync_loop catalog (some m) from rfl,
      sync_loop_marker_skips, hae]
  have h1' : stream_recognized m = true := by rw [← hid0]; exact h1
  have e2 : sync_loop (s0 :: tail) (some m)
      = (OEvent.write (some s0.id) :: OEvent.syncStream s0.id :: OEvent.write none
          :: (sync_loop tail none).1, (sync_loop tail none).2) := by
    simp [sync_loop, hsel, hid0, h1, h1']
  have e3 := sync_loop_none_events tail h2
  have emain : (sync catalog (some m)).1
      = (((catalog.dropWhile (fun s => s.id != m)).filter (fun s => s.selected)).map
          (fun s => s.id)).flatMap orchTriple := by
    rw [e1, e2, e3, hae, hf]
    simp [orchTriple]
  refine ⟨emain, ?_, ?_⟩
  · rw [e1, e2, e3]
  · intro s hs hssel hmem
    rw [emain, syncStream_mem_flatMap_orchTriple] at hmem
    have hsub : s.id ∈ ((catalog.dropWhile (fun t => t.id != m)).map (fun t => t.id)) := by
      rcases List.mem_map.mp hmem with ⟨t, ht, hteq⟩
      exact List.mem_map.mpr ⟨t, List.mem_of_mem_filter ht, hteq⟩
    have htake : s.id ∈ ((catalog.takeWhile (fun t => t.id != m)).map (fun t => t.id)) :=
      List.mem_map.mpr ⟨s, hs, rfl⟩
    have hsplit : catalog.map (fun s => s.id)
        = (catalog.takeWhile (fun t => t.id != m)).map (fun t => t.id)
          ++ (catalog.dropWhile (fun t => t.id != m)).map (fun t => t.id) := by
      rw [← List.map_append, List.takeWhile_append_dropWhile]
    rw [hsplit, List.nodup_append] at hNodup
    exact hNodup.2.2 htake hsub

/-- Witness for C6: a four-stream catalog resuming at `"campaigns"`. -/
theorem sync_orchestrator_resume_witness :
    (sync [⟨"activity_types", true⟩, ⟨"leads", false⟩, ⟨"campaigns", true⟩,
        ⟨"programs", true⟩] (some "campaigns")).1
      = [OEvent.write (some "campaigns"), OEvent.syncStream "campaigns", OEvent.write none,
         OEvent.write (some "programs"), OEvent.syncStream "programs", OEvent.write none]
    ∧ (sync [⟨"activity_types", true⟩, ⟨"leads", false⟩, ⟨"campaigns", true⟩,
        ⟨"programs", true⟩] (some "campaigns")).2 = true
    ∧ OEvent.syncStream "activity_types" ∉ (sync [⟨"activity_types", true⟩, ⟨"leads", false⟩,
        ⟨"campaigns", true⟩, ⟨"programs", true⟩] (some "campaigns")).1 := by
  have h := sync_orchestrator_resume
    [⟨"activity_types", true⟩, ⟨"leads", false⟩, ⟨"campaigns", true⟩, ⟨"programs", true⟩]
    "campaigns" ⟨"campaigns", true⟩ (by decide) (by decide) rfl (by decide)
  refine ⟨?_, h.2.1, ?_⟩
  · rw [h.1]; rfl
  · exact h.2.2 ⟨"activity_types", true⟩ (by decide) rfl

/-- `get_export_end` computes `min(start + 30 days, now)` truncated to
whole seconds. -/
theorem get_export_end_eq_min (s now : ℕ) :
    get_export_end s now = truncSec (min (s + MAX_EXPORT_DAYS * usPerDay) now) := by
  unfold get_export_end
  by_cases h : now ≤ s + MAX_EXPORT_DAYS * usPerDay
  · rw [if_pos h, min_eq_right h]
  · rw [if_neg h, min_eq_left (le_of_not_le h)]

/-- Truncation to whole seconds never increases a timestamp. -/
theorem truncSec_le (t : ℕ) : truncSec t ≤ t :=
  Nat.div_mul_le_self t usPerSecond

/-- The emitted-rows component of the leads row fold: with Corona all
rows, otherwise exactly the rows at or above the initial bookmark. -/
theorem leadsRowStep_foldl_snd (uc : Bool) (ib ee : ℕ) : ∀ (rows : List ℕ) (mb : ℕ)
    (em : List ℕ),
    (rows.foldl (leadsRowStep uc ib ee) (mb, em)).2
      = em ++ (if uc = true then rows else rows.filter (fun ts => ib ≤ ts)) := by
  intro rows
  induction rows with
  | nil => intro mb em; cases uc <;> simp
  | cons r rest ih =>
    intro mb em
    cases uc with
    | true => simp [leadsRowStep, ih]
    | false =>
      by_cases hr : ib ≤ r
      · simp [leadsRowStep, hr, ih]
      · simp [leadsRowStep, hr, ih]

/-- The max-bookmark component of the leads row fold with Corona: the
window end as soon as at least one row was streamed. -/
theorem leadsRowStep_foldl_fst_corona (ib ee : ℕ) : ∀ (rows : List ℕ) (mb : ℕ)
    (em : List ℕ),
    (rows.foldl (leadsRowStep true ib ee) (mb, em)).1
      = if rows = [] then mb else ee := by
  intro rows
  induction rows with
  | nil => intro mb em; simp
  | cons r rest ih =>
    intro mb em
    simp [leadsRowStep, ih]

/-- The max-bookmark component of the leads row fold without Corona: the
running maximum over the qualifying rows. -/
theorem leadsRowStep_foldl_fst_nc (ib ee : ℕ) : ∀ (rows : List ℕ) (mb : ℕ) (em : List ℕ),
    (rows.foldl (leadsRowStep false ib ee) (mb, em)).1
      = (rows.filter (fun ts => ib ≤ ts)).foldl max mb := by
  intro rows
  induction rows with
  | nil => intro mb em; simp
  | cons r rest ih =>
    intro mb em
    by_cases hr : ib ≤ r
    · simp [leadsRowStep, hr, ih]
    · simp [leadsRowStep, hr, ih]

/-- Folding `max` never decreases the accumulator. -/
theorem le_foldl_max_self : ∀ (l : List ℕ) (a : ℕ), a ≤ l.foldl max a := by
  intro l
  induction l with
  | nil => intro a; exact le_refl a
  | cons r rest ih => intro a; exact le_trans (le_max_left a r) (ih (max a r))

/-- Unfolding the leads loop at zero fuel. -/
theorem sync_leads_loop_zero (env : LeadsEnv) (ib js start mb i : ℕ) (st : StreamBook) :
    sync_leads_loop env ib js 0 start mb i st
      = ⟨[], [], start, if start < js then RunExit.fuelOut else RunExit.done⟩ := rfl

/-- Unfolding the leads loop when the `while` condition fails. -/
theorem sync_leads_loop_stop (env : LeadsEnv) (ib js fuel start mb i : ℕ) (st : StreamBook)
    (hc : ¬ start < js) :
    sync_leads_loop env ib js (fuel + 1) start mb i st = ⟨[], [], start, RunExit.done⟩ := by
  simp [sync_leads_loop, hc]

/-- Unfolding one successful iteration of the leads loop from a state with
no stored export id: a fresh export is created and its window processed. -/
theorem sync_leads_loop_succ_create (env : LeadsEnv) (ib js fuel start mb i : ℕ)
    (st : StreamBook) (hid : st.exportId = none) (hc : start < js)
    (hw : env.waitOk (env.newExportId i) = true) :
    sync_leads_loop env ib js (fuel + 1) start mb i st
      = ⟨⟨start, leadsEE env start i, (leadsFold env ib start mb i).2,
            (leadsFold env ib start mb i).1⟩ :: (leadsNext env ib js fuel start mb i).iters,
          ⟨st.repCursor, some (env.newExportId i), some (leadsEE env start i)⟩
            :: ⟨(leadsFold env ib start mb i).1, none, none⟩
            :: (leadsNext env ib js fuel start mb i).writes,
          (leadsNext env ib js fuel start mb i).finalStart,
          (leadsNext env ib js fuel start mb i).outcome⟩ := by
  simp [sync_leads_loop, hid, hc, hw, wait_for_export, update_state_with_export_info,
    leadsEE, leadsFold, leadsNext]

/-- Unfolding one iteration of the leads loop whose export wait fails:
the cleared state is written and the run crashes. -/
theorem sync_leads_loop_succ_waitfail (env : LeadsEnv) (ib js fuel start mb i : ℕ)
    (st : StreamBook) (hid : st.exportId = none) (hc : start < js)
    (hw : env.waitOk (env.newExportId i) = false) :
    sync_leads_loop env ib js (fuel + 1) start mb i st
      = ⟨[], [⟨st.repCursor, some (env.newExportId i), some (leadsEE env start i)⟩,
            ⟨st.repCursor, none, none⟩], start, RunExit.crashed⟩ := by
  simp [sync_leads_loop, hid, hc, hw, wait_for_export, update_state_with_export_info, leadsEE]

/-- Every window generated by the leads loop starts strictly before the
run-start time (the `while` condition). -/
theorem leads_loop_wstart_lt (env : LeadsEnv) (ib js : ℕ) : ∀ (fuel start mb i : ℕ)
    (st : StreamBook), st.exportId = none →
    ∀ (k : ℕ) (it : LeadsIter),
      (sync_leads_loop env ib js fuel start mb i st).iters[k]? = some it →
      it.wstart < js := by
  intro fuel
  induction fuel with
  | zero =>
    intro start mb i st hid k it hk
    rw [sync_leads_loop_zero] at hk
    simp at hk
  | succ fuel ih =>
    intro start mb i st hid k it hk
    by_cases hc : start < js
    · by_cases hw : env.waitOk (env.newExportId i) = true
      · rw [sync_leads_loop_succ_create env ib js fuel start mb i st hid hc hw] at hk
        cases k with
        | zero =>
          simp only [List.getElem?_cons_zero, Option.some.injEq] at hk
          rw [← hk]
          exact hc
        | succ k =>
          simp only [List.getElem?_cons_succ] at hk
          exact ih (leadsEE env start i) (leadsFold env ib start mb i).1 (i + 1)
            ⟨(leadsFold env ib start mb i).1, none, none⟩ rfl k it hk
      · rw [Bool.not_eq_true] at hw
        rw [sync_leads_loop_succ_waitfail env ib js fuel start mb i st hid hc hw] at hk
        simp at hk
    · rw [sync_leads_loop_stop env ib js fuel start mb i st hc] at hk
      simp at hk

/-- Every window end generated by the leads loop is
`min(start + 30 days, clock)` truncated to whole seconds, with the clock
read at that iteration. -/
theorem leads_loop_wend_eq (env : LeadsEnv) (ib js : ℕ) : ∀ (fuel start mb i : ℕ)
    (st : StreamBook), st.exportId = none →
    ∀ k it, (sync_leads_loop env ib js fuel start mb i st).iters[k]? = some it →
      it.wend = truncSec (min (it.wstart + MAX_EXPORT_DAYS * usPerDay) (env.clock (i + k))) := by
  intro fuel
  induction fuel with
  | zero =>
    intro start mb i st hid k it hk
    rw [sync_leads_loop_zero] at hk
    simp at hk
  | succ fuel ih =>
    intro start mb i st hid k it hk
    by_cases hc : start < js
    · by_cases hw : env.waitOk (env.newExportId i) = true
      · rw [sync_leads_loop_succ_create env ib js fuel start mb i st hid hc hw] at hk
        cases k with
        | zero =>
          simp only [List.getElem?_cons_zero, Option.some.injEq] at hk
          rw [← hk]
          simp only [Nat.add_zero]
          exact get_export_end_eq_min start (env.clock i)
        | succ k =>
          simp only [List.getElem?_cons_succ] at hk
          have hik : i + (k + 1) = (i + 1) + k := by omega
          rw [hik]
          exact ih (leadsEE env start i) (leadsFold env ib start mb i).1 (i + 1)
            ⟨(leadsFold env ib start mb i).1, none, none⟩ rfl k it hk
      · rw [Bool.not_eq_true] at hw
        rw [sync_leads_loop_succ_waitfail env ib js fuel start mb i st hid hc hw] at hk
        simp at hk
    · rw [sync_leads_loop_stop env ib js fuel start mb i st hc] at hk
      simp at hk

/-- The first window of a leads loop run starts at the loop's starting
`export_start`. -/
theorem leads_loop_first_start (env : LeadsEnv) (ib js : ℕ) : ∀ (fuel start mb i : ℕ)
    (st : StreamBook), st.exportId = none →
    ∀ it, (sync_leads_loop env ib js fuel start mb i st).iters[0]? = some it →
      it.wstart = start := by
  intro fuel
  cases fuel with
  | zero =>
    intro start mb i st hid it hk
    rw [sync_leads_loop_zero] at hk
    simp at hk
  | succ fuel =>
    intro start mb i st hid it hk
    by_cases hc : start < js
    · by_cases hw : env.waitOk (env.newExportId i) = true
      · rw [sync_leads_loop_succ_create env ib js fuel start mb i st hid hc hw] at hk
        simp only [List.getElem?_cons_zero, Option.some.injEq] at hk
        rw [← hk]
      · rw [Bool.not_eq_true] at hw
        rw [sync_leads_loop_succ_waitfail env ib js fuel start mb i st hid hc hw] at hk
        simp at hk
    · rw [sync_leads_loop_stop env ib js fuel start mb i st hc] at hk
      simp at hk

/-- Consecutive windows of a leads loop run are contiguous: each window
starts where the previous one ended (`export_start = export_end`). -/
theorem leads_loop_contig (env : LeadsEnv) (ib js : ℕ) : ∀ (fuel start mb i : ℕ)
    (st : StreamBook), st.exportId = none →
    ∀ k it1 it2, (sync_leads_loop env ib js fuel start mb i st).iters[k]? = some it1 →
      (sync_leads_loop env ib js fuel start mb i st).iters[k + 1]? = some it2 →
      it2.wstart = it1.wend := by
  intro fuel
  induction fuel with
  | zero =>
    intro start mb i st hid k it1 it2 hk1 hk2
    rw [sync_leads_loop_zero] at hk1
    simp at hk1
  | succ fuel ih =>
    intro start mb i st hid k it1 it2 hk1 hk2
    by_cases hc : start < js
    · by_cases hw : env.waitOk (env.newExportId i) = true
      · rw [sync_leads_loop_succ_create env ib js fuel start mb i st hid hc hw] at hk1 hk2
        cases k with
        | zero =>
          simp only [List.getElem?_cons_zero, Option.some.injEq] at hk1
          simp only [List.getElem?_cons_succ] at hk2
          rw [← hk1]
          exact leads_loop_first_start env ib js fuel (leadsEE env start i)
            (leadsFold env ib start mb i).1 (i + 1)
            ⟨(leadsFold env ib start mb i).1, none, none⟩ rfl it2 hk2
        | succ k =>
          simp only [List.getElem?_cons_succ] at hk1 hk2
          exact ih (leadsEE env start i) (leadsFold env ib start mb i).1 (i + 1)
            ⟨(leadsFold env ib start mb i).1, none, none⟩ rfl k it1 it2 hk1 hk2
      · rw [Bool.not_eq_true] at hw
        rw [sync_leads_loop_succ_waitfail env ib js fuel start mb i st hid hc hw] at hk1
        simp at hk1
    · rw [sync_leads_loop_stop env ib js fuel start mb i st hc] at hk1
      simp at hk1

/-- When the leads loop stops because the `while` condition failed, the
final `export_start` is at or past the run-start time. -/
theorem leads_loop_done_final (env : LeadsEnv) (ib js : ℕ) : ∀ (fuel start mb i : ℕ)
    (st : StreamBook), st.exportId = none →
    (sync_leads_loop env ib js fuel start mb i st).outcome = RunExit.done →
    js ≤ (sync_leads_loop env ib js fuel start mb i st).finalStart := by
  intro fuel
  induction fuel with
  | zero =>
    intro start mb i st hid hdone
    rw [sync_leads_loop_zero] at hdone ⊢
    by_cases hc : start < js
    · rw [if_pos hc] at hdone
      exact absurd hdone (by simp)
    · exact le_of_not_lt hc
  | succ fuel ih =>
    intro start mb i st hid hdone
    by_cases hc : start < js
    · by_cases hw : env.waitOk (env.newExportId i) = true
      · rw [sync_leads_loop_succ_create env ib js fuel start mb i st hid hc hw] at hdone ⊢
        exact ih (leadsEE env start i) (leadsFold env ib start mb i).1 (i + 1)
          ⟨(leadsFold env ib start mb i).1, none, none⟩ rfl hdone
      · rw [Bool.not_eq_true] at hw
        rw [sync_leads_loop_succ_waitfail env ib js fuel start mb i st hid hc hw] at hdone
        exact absurd hdone (by simp)
    · rw [sync_leads_loop_stop env ib js fuel start mb i st hc] at hdone ⊢
      exact le_of_not_lt hc

/-- A leads loop run that generated no window leaves `export_start`
unchanged. -/
theorem leads_loop_iters_nil_final (env : LeadsEnv) (ib js : ℕ) : ∀ (fuel start mb i : ℕ)
    (st : StreamBook), st.exportId = none →
    (sync_leads_loop env ib js fuel start mb i st).iters = [] →
    (sync_leads_loop env ib js fuel start mb i st).finalStart = start := by
  intro fuel
  cases fuel with
  | zero =>
    intro start mb i st hid _
    rw [sync_leads_loop_zero]
  | succ fuel =>
    intro start mb i st hid hnil
    by_cases hc : start < js
    · by_cases hw : env.waitOk (env.newExportId i) = true
      · rw [sync_leads_loop_succ_create env ib js fuel start mb i st hid hc hw] at hnil
        exact absurd hnil (by simp)
      · rw [Bool.not_eq_true] at hw
        rw [sync_leads_loop_succ_waitfail env ib js fuel start mb i st hid hc hw]
    · rw [sync_leads_loop_stop env ib js fuel start mb i st hc]

/-- The final `export_start` of a leads loop run that generated at least
one window equals the last window's end. -/
theorem leads_loop_last_wend (env : LeadsEnv) (ib js : ℕ) : ∀ (fuel start mb i : ℕ)
    (st : StreamBook), st.exportId = none →
    ∀ it, (sync_leads_loop env ib js fuel start mb i st).iters.getLast? = some it →
    (sync_leads_loop env ib js fuel start mb i st).finalStart = it.wend := by
  intro fuel
  induction fuel with
  | zero =>
    intro start mb i st hid it hlast
    rw [sync_leads_loop_zero] at hlast
    exact absurd hlast (by simp)
  | succ fuel ih =>
    intro start mb i st hid it hlast
    by_cases hc : start < js
    · by_cases hw : env.waitOk (env.newExportId i) = true
      · rw [sync_leads_loop_succ_create env ib js fuel start mb i st hid hc hw] at hlast ⊢
        rcases hrest : (leadsNext env ib js fuel start mb i).iters with _ | ⟨a, l⟩
        · rw [hrest] at hlast
          simp only [List.getLast?_singleton, Option.some.injEq] at hlast
          have hfin := leads_loop_iters_nil_final env ib js fuel (leadsEE env start i)
            (leadsFold env ib start mb i).1 (i + 1)
            ⟨(leadsFold env ib start mb i).1, none, none⟩ rfl hrest
          rw [show (leadsNext env ib js fuel start mb i).finalStart
              = (sync_leads_loop env ib js fuel (leadsEE env start i)
                  (leadsFold env ib start mb i).1 (i + 1)
                  ⟨(leadsFold env ib start mb i).1, none, none⟩).finalStart from rfl, hfin,
            ← hlast]
        · rw [hrest, List.getLast?_cons_cons] at hlast
          have := ih (leadsEE env start i) (leadsFold env ib start mb i).1 (i + 1)
            ⟨(leadsFold env ib start mb i).1, none, none⟩ rfl it (by rw [← hrest] at hlast; exact hlast)
          exact this
      · rw [Bool.not_eq_true] at hw
        rw [sync_leads_loop_succ_waitfail env ib js fuel start mb i st hid hc hw] at hlast
        exact absurd hlast (by simp)
    · rw [sync_leads_loop_stop env ib js fuel start mb i st hc] at hlast
      exact absurd hlast (by simp)

/-- If the leads loop finished normally without generating any window,
its starting `export_start` already failed the `while` condition. -/
theorem leads_loop_done_empty (env : LeadsEnv) (ib js : ℕ) : ∀ (fuel start mb i : ℕ)
    (st : StreamBook), st.exportId = none →
    (sync_leads_loop env ib js fuel start mb i st).outcome = RunExit.done →
    (sync_leads_loop env ib js fuel start mb i st).iters = [] →
    ¬ start < js := by
  intro fuel
  cases fuel with
  | zero =>
    intro start mb i st hid hdone _
    rw [sync_leads_loop_zero] at hdone
    by_cases hc : start < js
    · rw [if_pos hc] at hdone
      exact absurd hdone (by simp)
    · exact hc
  | succ fuel =>
    intro start mb i st hid hdone hnil
    by_cases hc : start < js
    · by_cases hw : env.waitOk (env.newExportId i) = true
      · rw [sync_leads_loop_succ_create env ib js fuel start mb i st hid hc hw] at hnil
        exact absurd hnil (by simp)
      · rw [Bool.not_eq_true] at hw
        rw [sync_leads_loop_succ_waitfail env ib js fuel start mb i st hid hc hw] at hdone
        exact absurd hdone (by simp)
    · exact hc

/-- The rows emitted per window of the leads loop: every streamed row with
Corona, and exactly the rows at or above the initial bookmark without. -/
theorem leads_loop_emitted (env : LeadsEnv) (ib js : ℕ) : ∀ (fuel start mb i : ℕ)
    (st : StreamBook), st.exportId = none →
    ∀ k it, (sync_leads_loop env ib js fuel start mb i st).iters[k]? = some it →
      it.emitted = if env.useCorona = true then env.rows (i + k)
        else (env.rows (i + k)).filter (fun ts => ib ≤ ts) := by
  intro fuel
  induction fuel with
  | zero =>
    intro start mb i st hid k it hk
    rw [sync_leads_loop_zero] at hk
    simp at hk
  | succ fuel ih =>
    intro start mb i st hid k it hk
    by_cases hc : start < js
    · by_cases hw : env.waitOk (env.newExportId i) = true
      · rw [sync_leads_loop_succ_create env ib js fuel start mb i st hid hc hw] at hk
        cases k with
        | zero =>
          simp only [List.getElem?_cons_zero, Option.some.injEq] at hk
          rw [← hk]
          simp only [Nat.add_zero]
          rw [show (leadsFold env ib start mb i).2
              = ((env.rows i).foldl (leadsRowStep env.useCorona ib
                  (leadsEE env start i)) (mb, [])).2 from rfl]
          rw [leadsRowStep_foldl_snd]
          simp
        | succ k =>
          simp only [List.getElem?_cons_succ] at hk
          have hik : i + (k + 1) = (i + 1) + k := by omega
          rw [hik]
          exact ih (leadsEE env start i) (leadsFold env ib start mb i).1 (i + 1)
            ⟨(leadsFold env ib start mb i).1, none, none⟩ rfl k it hk
      · rw [Bool.not_eq_true] at hw
        rw [sync_leads_loop_succ_waitfail env ib js fuel start mb i st hid hc hw] at hk
        simp at hk
    · rw [sync_leads_loop_stop env ib js fuel start mb i st hc] at hk
      simp at hk

/-- With Corona, the bookmark written after any window that streamed at
least one row is that window's end. -/
theorem leads_loop_bk_corona (env : LeadsEnv) (ib js : ℕ) (huc : env.useCorona = true) :
    ∀ (fuel start mb i : ℕ) (st : StreamBook), st.exportId = none →
    ∀ k it, (sync_leads_loop env ib js fuel start mb i st).iters[k]? = some it →
      env.rows (i + k) ≠ [] → it.bkWritten = it.wend := by
  intro fuel
  induction fuel with
  | zero =>
    intro start mb i st hid k it hk
    rw [sync_leads_loop_zero] at hk
    simp at hk
  | succ fuel ih =>
    intro start mb i st hid k it hk hrows
    by_cases hc : start < js
    · by_cases hw : env.waitOk (env.newExportId i) = true
      · rw [sync_leads_loop_succ_create env ib js fuel start mb i st hid hc hw] at hk
        cases k with
        | zero =>
          simp only [List.getElem?_cons_zero, Option.some.injEq] at hk
          rw [← hk]
          simp only
          rw [show (leadsFold env ib start mb i).1
              = ((env.rows i).foldl (leadsRowStep env.useCorona ib
                  (leadsEE env start i)) (mb, [])).1 from rfl, huc,
            leadsRowStep_foldl_fst_corona]
          rw [Nat.add_zero] at hrows
          rw [if_neg hrows]
        | succ k =>
          simp only [List.getElem?_cons_succ] at hk
          have hik : i + (k + 1) = (i + 1) + k := by omega
          rw [hik] at hrows
          exact ih (leadsEE env start i) (leadsFold env ib start mb i).1 (i + 1)
            ⟨(leadsFold env ib start mb i).1, none, none⟩ rfl k it hk hrows
      · rw [Bool.not_eq_true] at hw
        rw [sync_leads_loop_succ_waitfail env ib js fuel start mb i st hid hc hw] at hk
        simp at hk
    · rw [sync_leads_loop_stop env ib js fuel start mb i st hc] at hk
      simp at hk

/-- Splitting the cumulative qualifying-row fold at the first window. -/
theorem foldl_max_range_shift (f : ℕ → List ℕ) (mb k i : ℕ) :
    ((List.range (k + 2)).flatMap (fun j => f (i + j))).foldl max mb
      = ((List.range (k + 1)).flatMap (fun j => f ((i + 1) + j))).foldl max
          ((f i).foldl max mb) := by
  conv_lhs => rw [List.range_succ_eq_map]
  rw [List.flatMap_cons, List.flatMap_map, List.foldl_append]
  simp only [Function.comp, Nat.add_succ, Nat.succ_add, Nat.add_zero]

/-- Without Corona, the bookmark written after the k-th window is the
maximum of the loop's starting accumulator and every qualifying row seen
in windows 0..k. -/
theorem leads_loop_bk_nc (env : LeadsEnv) (ib js : ℕ) (huc : env.useCorona = false) :
    ∀ (fuel start mb i : ℕ) (st : StreamBook), st.exportId = none →
    ∀ k it, (sync_leads_loop env ib js fuel start mb i st).iters[k]? = some it →
      it.bkWritten = ((List.range (k + 1)).flatMap
        (fun j => (env.rows (i + j)).filter (fun ts => ib ≤ ts))).foldl max mb := by
  intro fuel
  induction fuel with
  | zero =>
    intro start mb i st hid k it hk
    rw [sync_leads_loop_zero] at hk
    simp at hk
  | succ fuel ih =>
    intro start mb i st hid k it hk
    by_cases hc : start < js
    · by_cases hw : env.waitOk (env.newExportId i) = true
      · rw [sync_leads_loop_succ_create env ib js fuel start mb i st hid hc hw] at hk
        have hfold : (leadsFold env ib start mb i).1
            = ((env.rows i).filter (fun ts => ib ≤ ts)).foldl max mb := by
          rw [show (leadsFold env ib start mb i).1
              = ((env.rows i).foldl (leadsRowStep env.useCorona ib
                  (leadsEE env start i)) (mb, [])).1 from rfl, huc,
            leadsRowStep_foldl_fst_nc]
        cases k with
        | zero =>
          simp only [List.getElem?_cons_zero, Option.some.injEq] at hk
          rw [← hk]
          simp only
          rw [hfold]
          rw [show List.range 1 = [0] from rfl]
          simp
        | succ k =>
          simp only [List.getElem?_cons_succ] at hk
          rw [ih (leadsEE env start i) (leadsFold env ib start mb i).1 (i + 1)
            ⟨(leadsFold env ib start mb i).1, none, none⟩ rfl k it hk, hfold]
          exact (foldl_max_range_shift
            (fun n => (env.rows n).filter (fun ts => ib ≤ ts)) mb k i).symm
      · rw [Bool.not_eq_true] at hw
        rw [sync_leads_loop_succ_waitfail env ib js fuel start mb i st hid hc hw] at hk
        simp at hk
    · rw [sync_leads_loop_stop env ib js fuel start mb i st hc] at hk
      simp at hk

/-- Without Corona, every state written by the leads loop carries a
replication cursor at or above the initial bookmark (given the loop's
accumulator and current state already do). -/
theorem leads_loop_writes_ge (env : LeadsEnv) (ib js : ℕ) (huc : env.useCorona = false) :
    ∀ (fuel start mb i : ℕ) (st : StreamBook), st.exportId = none → ib ≤ mb →
    ib ≤ st.repCursor →
    ∀ w ∈ (sync_leads_loop env ib js fuel start mb i st).writes, ib ≤ w.repCursor := by
  intro fuel
  induction fuel with
  | zero =>
    intro start mb i st hid hmb hst w hw
    rw [sync_leads_loop_zero] at hw
    exact absurd hw (by simp)
  | succ fuel ih =>
    intro start mb i st hid hmb hst w hmem
    by_cases hc : start < js
    · by_cases hw : env.waitOk (env.newExportId i) = true
      · rw [sync_leads_loop_succ_create env ib js fuel start mb i st hid hc hw] at hmem
        have hfold : ib ≤ (leadsFold env ib start mb i).1 := by
          rw [show (leadsFold env ib start mb i).1
              = ((env.rows i).foldl (leadsRowStep env.useCorona ib
                  (leadsEE env start i)) (mb, [])).1 from rfl, huc,
            leadsRowStep_foldl_fst_nc]
          exact le_trans hmb (le_foldl_max_self _ mb)
        simp only [List.mem_cons] at hmem
        rcases hmem with rfl | rfl | hmem
        · exact hst
        · exact hfold
        · exact ih (leadsEE env start i) (leadsFold env ib start mb i).1 (i + 1)
            ⟨(leadsFold env ib start mb i).1, none, none⟩ rfl hfold hfold w hmem
      · rw [Bool.not_eq_true] at hw
        rw [sync_leads_loop_succ_waitfail env ib js fuel start mb i st hid hc hw] at hmem
        simp only [List.mem_cons] at hmem
        rcases hmem with rfl | rfl | hmem
        · exact hst
        · exact hst
        · exact absurd hmem (by simp)
    · rw [sync_leads_loop_stop env ib js fuel start mb i st hc] at hmem
      exact absurd hmem (by simp)

/-- Every state written by the leads loop — export creation, post-window
bookmark write, or failure cleanup — has `export_id` and `export_end`
null together. -/
theorem leads_loop_writes_together (env : LeadsEnv) (ib js : ℕ) :
    ∀ (fuel start mb i : ℕ) (st : StreamBook),
      (sync_leads_loop env ib js fuel start mb i st).writes.all exportFieldsTogether
        = true := by
  intro fuel
  induction fuel with
  | zero => intro start mb i st; rw [sync_leads_loop_zero]; rfl
  | succ fuel ih =>
    intro start mb i st
    by_cases hc : start < js
    · cases hA : (if env.avail st.exportId then st.exportId else none) with
      | none =>
        by_cases hw : env.waitOk (env.newExportId i) = true
        · simp [sync_leads_loop, hA, hc, hw, wait_for_export,
            update_state_with_export_info, exportFieldsTogether, ih]
        · rw [Bool.not_eq_true] at hw
          simp [sync_leads_loop, hA, hc, hw, wait_for_export,
            update_state_with_export_info, exportFieldsTogether]
      | some eid =>
        cases hE : st.exportEnd with
        | none => simp [sync_leads_loop, hA, hE, hc]
        | some ee =>
          by_cases hw : env.waitOk eid = true
          · simp [sync_leads_loop, hA, hE, hc, hw, wait_for_export,
              update_state_with_export_info, exportFieldsTogether, ih]
          · rw [Bool.not_eq_true] at hw
            simp [sync_leads_loop, hA, hE, hc, hw, wait_for_export,
              update_state_with_export_info, exportFieldsTogether]
    · simp [sync_leads_loop, hc]

/-- Every state written by the activities loop has `export_id` and
`export_end` null together. -/
theorem act_loop_writes_together (env : ActEnv) (js : ℕ) :
    ∀ (fuel start i : ℕ) (st : StreamBook),
      (sync_activities_loop env js fuel start i st).writes.all exportFieldsTogether
        = true := by
  intro fuel
  induction fuel with
  | zero => intro start i st; rfl
  | succ fuel ih =>
    intro start i st
    by_cases hc : start < js
    · cases hA : (if env.avail st.exportId then st.exportId else none) with
      | none =>
        by_cases hw : env.waitOk (env.newExportId i) = true
        · by_cases hr : env.rowCount i = 0
          · simp [sync_activities_loop, hA, hc, hw, hr, wait_for_export,
              update_state_with_export_info, exportFieldsTogether, ih]
          · simp [sync_activities_loop, hA, hc, hw, hr, wait_for_export,
              update_state_with_export_info, exportFieldsTogether]
        · rw [Bool.not_eq_true] at hw
          simp [sync_activities_loop, hA, hc, hw, wait_for_export,
            update_state_with_export_info, exportFieldsTogether]
      | some eid =>
        cases hE : st.exportEnd with
        | none => simp [sync_activities_loop, hA, hE, hc]
        | some ee =>
          by_cases hw : env.waitOk eid = true
          · by_cases hr : env.rowCount i = 0
            · simp [sync_activities_loop, hA, hE, hc, hw, hr, wait_for_export,
                update_state_with_export_info, exportFieldsTogether, ih]
            · simp [sync_activities_loop, hA, hE, hc, hw, hr, wait_for_export,
                update_state_with_export_info, exportFieldsTogether]
          · rw [Bool.not_eq_true] at hw
            simp [sync_activities_loop, hA, hE, hc, hw, wait_for_export,
              update_state_with_export_info, exportFieldsTogether]
    · simp [sync_activities_loop, hc]

/-- C9: across every state write performed by the windowed syncs (export
creation, post-window bookmark write, failure cleanup — the only writers
that touch these fields), the `export_id` and `export_end` bookmark
fields are set together and cleared together: each written state has
`export_id` null exactly when `export_end` is null. -/
theorem export_info_fields_set_and_cleared_together :
    (∀ (env : LeadsEnv) (fuel : ℕ) (st : StreamBook) (js : ℕ),
      (sync_leads env fuel st js).writes.all exportFieldsTogether = true)
    ∧ (∀ (env : ActEnv) (fuel : ℕ) (st : StreamBook) (js : ℕ),
      (sync_activities env fuel st js).writes.all exportFieldsTogether = true) := by
  constructor
  · intro env fuel st js
    exact leads_loop_writes_together env st.repCursor js fuel
      (if env.useCorona = true then st.repCursor - ATTRIBUTION_WINDOW_DAYS * usPerDay
        else st.repCursor) st.repCursor 0 st
  · intro env fuel st js
    exact act_loop_writes_together env js fuel st.repCursor 0 st

/-- C3: for a leads run started with no in-flight export, a bookmark not
past the run-start time, and a clock that stays between the run-start
time and `nowBound`: every window's end is `min(start + 30 days, now)`
with sub-second precision dropped; successive windows are contiguous
(`window[i].end = window[i+1].start`); every window starts strictly
before the run-start time, and a normally-finished run stopped only once
the next start reached it; and the final window's end is at most
`nowBound` and at least the run's starting bookmark. -/
theorem leads_window_invariants (env : LeadsEnv) (fuel : ℕ) (st : StreamBook)
    (job_started nowBound : ℕ)
    (hid : st.exportId = none)
    (hjs : st.repCursor ≤ job_started)
    (_hclock : ∀ i, job_started ≤ env.clock i)
    (hnow : ∀ i, env.clock i ≤ nowBound) :
    (∀ (k : ℕ) (it : LeadsIter),
        (sync_leads env fuel st job_started).iters[k]? = some it →
        it.wend = truncSec (min (it.wstart + MAX_EXPORT_DAYS * usPerDay) (env.clock k)))
    ∧ (∀ (k : ℕ) (it1 it2 : LeadsIter),
        (sync_leads env fuel st job_started).iters[k]? = some it1 →
        (sync_leads env fuel st job_started).iters[k + 1]? = some it2 →
        it2.wstart = it1.wend)
    ∧ (∀ (k : ℕ) (it : LeadsIter),
        (sync_leads env fuel st job_started).iters[k]? = some it →
        it.wstart < job_started)
    ∧ ((sync_leads env fuel st job_started).outcome = RunExit.done →
        job_started ≤ (sync_leads env fuel st job_started).finalStart)
    ∧ (∀ it, (sync_leads env fuel st job_started).iters.getLast? = some it →
        (sync_leads env fuel st job_started).outcome = RunExit.done →
        st.repCursor ≤ it.wend ∧ it.wend ≤ nowBound)
    ∧ ((sync_leads env fuel st job_started).outcome = RunExit.done →
        (sync_leads env fuel st job_started).iters = [] →
        ¬ (if env.useCorona = true then st.repCursor - ATTRIBUTION_WINDOW_DAYS * usPerDay
            else st.repCursor) < job_started) := by
  have hloop : sync_leads env fuel st job_started
      = sync_leads_loop env st.repCursor job_started fuel
          (if env.useCorona = true then st.repCursor - ATTRIBUTION_WINDOW_DAYS * usPerDay
            else st.repCursor) st.repCursor 0 st := rfl
  refine ⟨?_, ?_, ?_, ?_, ?_, ?_⟩
  · intro k it hk
    rw [hloop] at hk
    have := leads_loop_wend_eq env st.repCursor job_started fuel
      (if env.useCorona = true then st.repCursor - ATTRIBUTION_WINDOW_DAYS * usPerDay
        else st.repCursor) st.repCursor 0 st hid k it hk
    rwa [Nat.zero_add] at this
  · intro k it1 it2 hk1 hk2
    rw [hloop] at hk1 hk2
    exact leads_loop_contig env st.repCursor job_started fuel
      (if env.useCorona = true then st.repCursor - ATTRIBUTION_WINDOW_DAYS * usPerDay
        else st.repCursor) st.repCursor 0 st hid k it1 it2 hk1 hk2
  · intro k it hk
    rw [hloop] at hk
    exact leads_loop_wstart_lt env st.repCursor job_started fuel
      (if env.useCorona = true then st.repCursor - ATTRIBUTION_WINDOW_DAYS * usPerDay
        else st.repCursor) st.repCursor 0 st hid k it hk
  · intro hdone
    rw [hloop] at hdone ⊢
    exact leads_loop_done_final env st.repCursor job_started fuel
      (if env.useCorona = true then st.repCursor - ATTRIBUTION_WINDOW_DAYS * usPerDay
        else st.repCursor) st.repCursor 0 st hid hdone
  · intro it hlast hdone
    rw [hloop] at hlast hdone
    have hfs := leads_loop_last_wend env st.repCursor job_started fuel
      (if env.useCorona = true then st.repCursor - ATTRIBUTION_WINDOW_DAYS * usPerDay
        else st.repCursor) st.repCursor 0 st hid it hlast
    have hdf := leads_loop_done_final env st.repCursor job_started fuel
      (if env.useCorona = true then st.repCursor - ATTRIBUTION_WINDOW_DAYS * usPerDay
        else st.repCursor) st.repCursor 0 st hid hdone
    rw [hfs] at hdf
    have hk : (sync_leads_loop env st.repCursor job_started fuel
        (if env.useCorona = true then st.repCursor - ATTRIBUTION_WINDOW_DAYS * usPerDay
          else st.repCursor) st.repCursor 0 st).iters[(sync_leads_loop env st.repCursor
            job_started fuel (if env.useCorona = true then
              st.repCursor - ATTRIBUTION_WINDOW_DAYS * usPerDay else st.repCursor)
            st.repCursor 0 st).iters.length - 1]? = some it := by
      rw [← List.getLast?_eq_getElem?]
      exact hlast
    have hwe := leads_loop_wend_eq env st.repCursor job_started fuel
      (if env.useCorona = true then st.repCursor - ATTRIBUTION_WINDOW_DAYS * usPerDay
        else st.repCursor) st.repCursor 0 st hid _ it hk
    constructor
    · exact le_trans hjs hdf
    · rw [hwe]
      exact le_trans (truncSec_le _) (le_trans (min_le_right _ _) (hnow _))
  · intro hdone hnil
    rw [hloop] at hdone hnil
    exact leads_loop_done_empty env st.repCursor job_started fuel
      (if env.useCorona = true then st.repCursor - ATTRIBUTION_WINDOW_DAYS * usPerDay
        else st.repCursor) st.repCursor 0 st hid hdone hnil

/-- Witness for C3: a 31-day backlog with a clock half a second past the
run start; the run finishes with its final `export_start` at or past the
run-start time. -/
theorem leads_window_invariants_witness :
    (31 * usPerDay : ℕ)
      ≤ (sync_leads ⟨false, fun _ => false, fun i => i, fun _ => [],
          fun _ => 31 * usPerDay + 500000, fun _ => true⟩ 3 ⟨0, none, none⟩
          (31 * usPerDay)).finalStart := by
  have h := leads_window_invariants
    ⟨false, fun _ => false, fun i => i, fun _ => [], fun _ => 31 * usPerDay + 500000,
      fun _ => true⟩ 3 ⟨0, none, none⟩ (31 * usPerDay) (31 * usPerDay + 500000) rfl
    (Nat.zero_le _) (fun _ => Nat.le_add_right _ _) (fun _ => le_refl _)
  exact h.2.2.2.1 (by decide)

/-- Counterexample to C1 as stated: a Corona run whose single window
streams zero rows writes the unchanged initial bookmark (1 day), not the
window end (1 day + 1 second) — `max_bookmark = export_end` only runs
inside the per-row loop (sync.py:220-221). -/
theorem leads_corona_empty_window_counterexample :
    (sync_leads ⟨true, fun _ => false, fun i => i, fun _ => [],
        fun _ => usPerDay + usPerSecond, fun _ => true⟩ 3 ⟨usPerDay, none, none⟩
        (usPerDay + usPerSecond)).iters
      = [⟨0, usPerDay + usPerSecond, [], usPerDay⟩]
    ∧ (usPerDay : ℕ) ≠ usPerDay + usPerSecond :=
  ⟨by decide, by decide⟩

/-- C1 (amended): for the leads sync started with no in-flight export —
with Corona, the first window's start is the bookmark backed off by the
1-day attribution window, every streamed row is emitted, and the
high-water mark written after any window that streamed at least one row
equals that window's end (a window with no rows leaves it unchanged);
without Corona, a row is emitted iff its own `updatedAt` is at least the
bookmark read at run start, and the high-water mark written after each
window is the maximum of that initial bookmark and all qualifying row
timestamps seen so far. -/
theorem leads_sync_bookmark_claim (env : LeadsEnv) (fuel : ℕ) (st : StreamBook)
    (job_started : ℕ) (hid : st.exportId = none) :
    (env.useCorona = true →
      (∀ it, (sync_leads env fuel st job_started).iters[0]? = some it →
          it.wstart = st.repCursor - ATTRIBUTION_WINDOW_DAYS * usPerDay)
      ∧ (∀ (k : ℕ) (it : LeadsIter),
          (sync_leads env fuel st job_started).iters[k]? = some it →
          it.emitted = env.rows k)
      ∧ (∀ (k : ℕ) (it : LeadsIter),
          (sync_leads env fuel st job_started).iters[k]? = some it →
          env.rows k ≠ [] → it.bkWritten = it.wend))
    ∧ (env.useCorona = false →
      (∀ (k : ℕ) (it : LeadsIter),
          (sync_leads env fuel st job_started).iters[k]? = some it →
          it.emitted = (env.rows k).filter (fun ts => st.repCursor ≤ ts))
      ∧ (∀ (k : ℕ) (it : LeadsIter),
          (sync_leads env fuel st job_started).iters[k]? = some it →
          it.bkWritten = ((List.range (k + 1)).flatMap
            (fun j => (env.rows j).filter (fun ts => st.repCursor ≤ ts))).foldl max
              st.repCursor)) := by
  have hloop : sync_leads env fuel st job_started
      = sync_leads_loop env st.repCursor job_started fuel
          (if env.useCorona = true then st.repCursor - ATTRIBUTION_WINDOW_DAYS * usPerDay
            else st.repCursor) st.repCursor 0 st := rfl
  constructor
  · intro huc
    refine ⟨?_, ?_, ?_⟩
    · intro it hk
      rw [hloop] at hk
      have := leads_loop_first_start env st.repCursor job_started fuel
        (if env.useCorona = true then st.repCursor - ATTRIBUTION_WINDOW_DAYS * usPerDay
          else st.repCursor) st.repCursor 0 st hid it hk
      rwa [if_pos huc] at this
    · intro k it hk
      rw [hloop] at hk
      have := leads_loop_emitted env st.repCursor job_started fuel
        (if env.useCorona = true then st.repCursor - ATTRIBUTION_WINDOW_DAYS * usPerDay
          else st.repCursor) st.repCursor 0 st hid k it hk
      rwa [if_pos huc, Nat.zero_add] at this
    · intro k it hk hrows
      rw [hloop] at hk
      rw [show k = 0 + k from (Nat.zero_add k).symm] at hrows
      exact leads_loop_bk_corona env st.repCursor job_started huc fuel
        (if env.useCorona = true then st.repCursor - ATTRIBUTION_WINDOW_DAYS * usPerDay
          else st.repCursor) st.repCursor 0 st hid k it hk hrows
  · intro huc
    constructor
    · intro k it hk
      rw [hloop] at hk
      have := leads_loop_emitted env st.repCursor job_started fuel
        (if env.useCorona = true then st.repCursor - ATTRIBUTION_WINDOW_DAYS * usPerDay
          else st.repCursor) st.repCursor 0 st hid k it hk
      rw [huc] at this
      simp only [Bool.false_eq_true, if_false, Nat.zero_add] at this
      exact this
    · intro k it hk
      rw [hloop] at hk
      have := leads_loop_bk_nc env st.repCursor job_started huc fuel
        (if env.useCorona = true then st.repCursor - ATTRIBUTION_WINDOW_DAYS * usPerDay
          else st.repCursor) st.repCursor 0 st hid k it hk
      simpa [Nat.zero_add] using this

/-- Witness for C1's amended theorem: a Corona window with one row has
its post-window bookmark equal to the window end. -/
theorem leads_sync_bookmark_claim_witness :
    (sync_leads ⟨true, fun _ => false, fun i => i, fun _ => [usPerDay],
        fun _ => usPerDay + usPerSecond, fun _ => true⟩ 3 ⟨usPerDay, none, none⟩
        (usPerDay + usPerSecond)).iters[0]?
      = some ⟨0, usPerDay + usPerSecond, [usPerDay], usPerDay + usPerSecond⟩
    ∧ (⟨0, usPerDay + usPerSecond, [usPerDay], usPerDay + usPerSecond⟩
        : LeadsIter).bkWritten
      = (⟨0, usPerDay + usPerSecond, [usPerDay], usPerDay + usPerSecond⟩
        : LeadsIter).wend := by
  refine ⟨by decide, ?_⟩
  exact ((leads_sync_bookmark_claim ⟨true, fun _ => false, fun i => i, fun _ => [usPerDay],
      fun _ => usPerDay + usPerSecond, fun _ => true⟩ 3 ⟨usPerDay, none, none⟩
      (usPerDay + usPerSecond) rfl).1 rfl).2.2 0
    ⟨0, usPerDay + usPerSecond, [usPerDay], usPerDay + usPerSecond⟩ (by decide) (by decide)

/-- Counterexample to C10 as stated: after a first window whose row
advanced the cursor to 5000000, a second window with no qualifying rows
leaves the cursor at 5000000 — unchanged, but not "exactly at the initial
bookmark" (which is 1). -/
theorem leads_noncorona_stall_counterexample :
    (sync_leads ⟨false, fun _ => false, fun i => i,
        fun j => if j = 0 then [5000000] else [], fun _ => 5184000000000, fun _ => true⟩
        3 ⟨1, none, none⟩ 5184000000000).iters
      = [⟨1, 2592000000000, [5000000], 5000000⟩,
         ⟨2592000000000, 5184000000000, [], 5000000⟩]
    ∧ (5000000 : ℕ) ≠ 1 :=
  ⟨by decide, by decide⟩

/-- C10 (amended): in the non-Corona leads sync the replication cursor
never decreases — every state written carries a cursor at or above the
bookmark read at run start — and a window with no qualifying rows leaves
the cursor unchanged from the previous window's value; in particular it
stays exactly at the initial bookmark while no window has had a
qualifying row. -/
theorem leads_noncorona_cursor_monotone (env : LeadsEnv) (fuel : ℕ) (st : StreamBook)
    (job_started : ℕ) (hid : st.exportId = none) (huc : env.useCorona = false) :
    (∀ w ∈ (sync_leads env fuel st job_started).writes, st.repCursor ≤ w.repCursor)
    ∧ (∀ (k : ℕ) (it1 it2 : LeadsIter),
        (sync_leads env fuel st job_started).iters[k]? = some it1 →
        (sync_leads env fuel st job_started).iters[k + 1]? = some it2 →
        (env.rows (k + 1)).filter (fun ts => st.repCursor ≤ ts) = [] →
        it2.bkWritten = it1.bkWritten)
    ∧ (∀ (k : ℕ) (it : LeadsIter),
        (sync_leads env fuel st job_started).iters[k]? = some it →
        (∀ j, j ≤ k → (env.rows j).filter (fun ts => st.repCursor ≤ ts) = []) →
        it.bkWritten = st.repCursor) := by
  have hloop : sync_leads env fuel st job_started
      = sync_leads_loop env st.repCursor job_started fuel
          (if env.useCorona = true then st.repCursor - ATTRIBUTION_WINDOW_DAYS * usPerDay
            else st.repCursor) st.repCursor 0 st := rfl
  have hbk : ∀ (k : ℕ) (it : LeadsIter),
      (sync_leads env fuel st job_started).iters[k]? = some it →
      it.bkWritten = ((List.range (k + 1)).flatMap
        (fun j => (env.rows j).filter (fun ts => st.repCursor ≤ ts))).foldl max
          st.repCursor := by
    intro k it hk
    rw [hloop] at hk
    have := leads_loop_bk_nc env st.repCursor job_started huc fuel
      (if env.useCorona = true then st.repCursor - ATTRIBUTION_WINDOW_DAYS * usPerDay
        else st.repCursor) st.repCursor 0 st hid k it hk
    simpa [Nat.zero_add] using this
  refine ⟨?_, ?_, ?_⟩
  · intro w hw
    rw [hloop] at hw
    exact leads_loop_writes_ge env st.repCursor job_started huc fuel
      (if env.useCorona = true then st.repCursor - ATTRIBUTION_WINDOW_DAYS * usPerDay
        else st.repCursor) st.repCursor 0 st hid (le_refl _) (le_refl _) w hw
  · intro k it1 it2 hk1 hk2 hempty
    rw [hbk k it1 hk1, hbk (k + 1) it2 hk2]
    rw [List.range_succ, List.flatMap_append]
    simp [hempty]
  · intro k it hk hall
    rw [hbk k it hk]
    have hnil : ((List.range (k + 1)).flatMap
        (fun j => (env.rows j).filter (fun ts => st.repCursor ≤ ts))) = [] := by
      rw [List.flatMap_eq_nil_iff]
      intro j hj
      exact hall j (Nat.lt_succ_iff.mp (List.mem_range.mp hj))
    rw [hnil]
    rfl

/-- Witness for C10's amended theorem: the stalled window of the
counterexample run leaves the cursor unchanged. -/
theorem leads_noncorona_cursor_monotone_witness :
    (sync_leads ⟨false, fun _ => false, fun i => i,
        fun j => if j = 0 then [5000000] else [], fun _ => 5184000000000, fun _ => true⟩
        3 ⟨1, none, none⟩ 5184000000000).iters[1]?
      = some ⟨2592000000000, 5184000000000, [], 5000000⟩
    ∧ (⟨2592000000000, 5184000000000, [], 5000000⟩ : LeadsIter).bkWritten
      = (⟨1, 2592000000000, [5000000], 5000000⟩ : LeadsIter).bkWritten := by
  refine ⟨by decide, ?_⟩
  exact (leads_noncorona_cursor_monotone ⟨false, fun _ => false, fun i => i,
      fun j => if j = 0 then [5000000] else [], fun _ => 5184000000000, fun _ => true⟩
      3 ⟨1, none, none⟩ 5184000000000 rfl rfl).2.1 0
    ⟨1, 2592000000000, [5000000], 5000000⟩
    ⟨2592000000000, 5184000000000, [], 5000000⟩ (by decide) (by decide) (by decide)

end TapMarketo
